import Mathlib

/-
Verification of the withdraw-relay orchestration engine of poa-bridge
(src/bridge/src/bridge/withdraw_relay.rs).

Bytes are modelled as lists of naturals below 256; 256-bit machine words and
addresses as naturals.  The collaborator components that live outside the
source under verification (the contract ABI bindings, the log stream, the
message-to-gas-price decoder, the signature codec and the nonce-allocating
sender) are modelled from the spec: the concrete ABI payload shapes are fixed
by the reference test vectors, and the remaining collaborators are abstract
function parameters resolved by an explicit environment.
-/

namespace PoaBridge

/-- Modelled from the spec: big-endian encoding of an integer into a fixed
number of bytes, as the contract ABI bindings do to pad an integer argument
to a 32-byte word. -/
def beBytes : Nat → Nat → List Nat
  | 0, _ => []
  | w + 1, n => beBytes w (n / 256) ++ [n % 256]

/-- Modelled from the spec: big-endian reinterpretation of a byte string as an
unsigned integer, as in the required-signature-count derivation. -/
def fromBytesBE (bs : List Nat) : Nat :=
  bs.foldl (fun acc b => acc * 256 + b) 0

/-- Modelled from the spec: four-byte selector of the ForeignBridge message
function, fixed by the reference test vectors. -/
def messageSelector : List Nat := [0x49, 0x0a, 0x32, 0xc6]

/-- Modelled from the spec: four-byte selector of the ForeignBridge signature
function, fixed by the reference test vectors. -/
def signatureSelector : List Nat := [0x18, 0x12, 0xd9, 0x96]

/-- Modelled from the spec: ABI call payload of the ForeignBridge message
function, the selector followed by one 32-byte word argument. -/
def message_input (arg : Nat) : List Nat := messageSelector ++ beBytes 32 arg

/-- Modelled from the spec: ABI call payload of the ForeignBridge signature
function, the selector followed by the 32-byte message hash and the 32-byte
index. -/
def signature_input (hash index : Nat) : List Nat :=
  signatureSelector ++ beBytes 32 hash ++ beBytes 32 index

/-- Modelled from the spec: keccak topic hash of the CollectedSignatures
event, fixed by the reference test vectors. -/
def collectedSignaturesTopic : Nat :=
  0x415557404d88a0c0b8e3b16967cafffc511213fd9c465c16832ee17ed57d7237

/-- Typed CollectedSignatures event, as parsed from one chain log. -/
structure CollectedSignatures where
  authority_responsible_for_relay : Nat
  message_hash : Nat
  number_of_collected_signatures : Nat
deriving DecidableEq

/-- Raw chain log: topic words and data bytes. -/
structure Log where
  topics : List Nat
  data : List Nat
deriving DecidableEq

/-- Modelled from the spec: event decode of a raw chain log into a
CollectedSignatures event.  A well-formed log has exactly the event signature
hash as its topic and 96 data bytes holding the responsible authority address
(last 20 bytes of the first word), the message hash and the signature count;
anything else is a malformed log and fails to decode. -/
def parse_collected_signatures (log : Log) : Option CollectedSignatures :=
  if log.topics = [collectedSignaturesTopic] ∧ log.data.length = 96 ∧ ∀ b ∈ log.data, b < 256 then
    some {
      authority_responsible_for_relay := fromBytesBE ((log.data.take 32).drop 12),
      message_hash := fromBytesBE ((log.data.drop 32).take 32),
      number_of_collected_signatures := fromBytesBE (log.data.drop 64) }
  else
    none

/-- Error taxonomy of the engine: contextualized collaborator failures (the
inner transport error is an opaque identifier), InsufficientFunds, and decode
failures. -/
inductive Error where
  | contextualized (context : String) (e : Nat)
  | insufficientFunds
  | decode
deriving DecidableEq

/-- Payloads for calls to the ForeignBridge signature and message functions,
for one event this node owns. -/
structure RelayAssignment where
  signature_payloads : List (List Nat)
  message_payload : List Nat
deriving DecidableEq

/-- Event Decoder and Assignment Builder, translated from signatures_payload
in withdraw_relay.rs: decode the log, return none when another authority is
responsible, otherwise derive the required signature count by the
encode-then-strip-selector round trip, take its low 32 bits, and build one
signature call payload per index plus one message call payload. -/
def signatures_payload (my_address : Nat) (log : Log) :
    Except Error (Option RelayAssignment) :=
  match parse_collected_signatures log with
  | none => .error .decode
  | some collected_signatures =>
    if collected_signatures.authority_responsible_for_relay ≠ my_address then
      .ok none
    else
      let required_signatures :=
        fromBytesBE ((message_input collected_signatures.number_of_collected_signatures).drop 4)
      .ok (some {
        signature_payloads := (List.range (required_signatures % 2 ^ 32)).map
          (fun index => signature_input collected_signatures.message_hash index),
        message_payload := message_input collected_signatures.message_hash })

/-- Collect results of signatures_payload over a list of logs, short-circuiting
on the first error, as the collect over a Result vector does in the Wait arm. -/
def collectAssignments (my_address : Nat) : List Log → Except Error (List (Option RelayAssignment))
  | [] => .ok []
  | log :: logs =>
    match signatures_payload my_address log with
    | .error e => .error e
    | .ok a =>
      match collectAssignments my_address logs with
      | .error e => .error e
      | .ok rest => .ok (a :: rest)

/-- Signature components decoded from raw RPC output. -/
structure Signature where
  v : Nat
  r : Nat
  s : Nat
deriving DecidableEq

/-- Unsigned transaction as constructed by the FetchMessagesSignatures arm;
action is the call target address. -/
structure Transaction where
  gas : Nat
  gas_price : Nat
  value : Nat
  data : List Nat
  nonce : Nat
  action : Nat
deriving DecidableEq

/-- One item produced by the log stream: the batch of logs and the upper block
bound of the scanned range. -/
structure LogStreamItem where
  logs : List Log
  to_block : Nat
deriving DecidableEq

/-- Pending combined fetch future, identified by the call payloads it was
built from: the message call payloads and the per-event signature call payload
groups. -/
structure FetchFuture where
  messages : List (List Nat)
  signatures : List (List (List Nat))
deriving DecidableEq

/-- Checkpoint-advance value emitted by the stream. -/
inductive BridgeChecked where
  | withdrawRelay (block : Nat)
deriving DecidableEq

/-- State of the withdraw relay state machine, translated from
WithdrawRelayState in withdraw_relay.rs; pending futures are identified by
the requests they hold. -/
inductive WithdrawRelayState where
  | wait
  | fetchMessagesSignatures (future : FetchFuture) (block : Nat)
  | relayWithdraws (future : List Transaction) (block : Nat)
  | yield (block : Option Nat)
deriving DecidableEq

/-- Outcome of polling one pending future: not ready, ready with a value, or
failed with an opaque collaborator error. -/
inductive FPoll (α : Type) where
  | notReady
  | ready (a : α)
  | failed (e : Nat)

/-- Static configuration the poll body reads: the fixed withdraw gas limit,
the home contract address and this node's foreign account address. -/
structure Config where
  gas : Nat
  home_contract : Nat
  foreign_account : Nat

/-- Modelled from the spec: the collaborator codecs the fetch arm uses — the
ABI output decoder of the foreign message function, the combined ABI output
decoder of the foreign signature function with the signature byte codec, the
ABI input encoder of the home withdraw function over the v, r, s sequences
and the message bytes, and the gas-price field extractor of the
message-to-mainnet decoder. -/
structure Collab where
  decodeMessage : List Nat → Option (List Nat)
  decodeSignature : List Nat → Option Signature
  withdraw_input : List Nat → List Nat → List Nat → List Nat → List Nat
  mainnet_gas_price : List Nat → Nat

/-- Environment of one poll call: what the log stream poll returns, what each
pending fetch or send future returns when polled, and the snapshots of the
shared home balance and home gas price locks. -/
structure Env where
  logsPoll : FPoll (Option LogStreamItem)
  fetchResult : FetchFuture → FPoll (List (List Nat) × List (List (List Nat)))
  sendsResult : List Transaction → FPoll Unit
  home_balance : Option Nat
  home_gas_price : Nat

/-- Outcome of one iteration of the poll loop: commit a state transition and
continue, or return not-ready, a yielded item, end of stream, an error, or an
assertion failure; fuelOut marks exhaustion of the loop fuel. -/
inductive StepOut where
  | next
  | notReady
  | yielded (v : BridgeChecked)
  | ended
  | error (e : Error)
  | panic
  | fuelOut
deriving DecidableEq

/-- Decode every raw message output, short-circuiting on failure, as the
collect over an ethabi Result vector does. -/
def decodeMessagesRaw (decodeMessage : List Nat → Option (List Nat)) :
    List (List Nat) → Option (List (List Nat))
  | [] => some []
  | m :: ms =>
    match decodeMessage m with
    | none => none
    | some d =>
      match decodeMessagesRaw decodeMessage ms with
      | none => none
      | some ds => some (d :: ds)

/-- Decode one group of raw signature outputs, short-circuiting on failure. -/
def decodeSignatureList (decodeSignature : List Nat → Option Signature) :
    List (List Nat) → Option (List Signature)
  | [] => some []
  | b :: bs =>
    match decodeSignature b with
    | none => none
    | some sg =>
      match decodeSignatureList decodeSignature bs with
      | none => none
      | some sgs => some (sg :: sgs)

/-- Decode every group of raw signature outputs, short-circuiting on failure. -/
def decodeSignatureGroups (decodeSignature : List Nat → Option Signature) :
    List (List (List Nat)) → Option (List (List Signature))
  | [] => some []
  | g :: gs =>
    match decodeSignatureList decodeSignature g with
    | none => none
    | some dg =>
      match decodeSignatureGroups decodeSignature gs with
      | none => none
      | some dgs => some (dg :: dgs)

/-- Withdrawal transaction built for one decoded message and its signatures:
the fixed configured gas limit, the gas price extracted from the message
bytes themselves, zero value, the encoded home withdraw call as data, a
placeholder nonce, and the home contract as call target. -/
def mkRelayTx (cfg : Config) (col : Collab) (message : List Nat)
    (sgs : List Signature) : Transaction :=
  { gas := cfg.gas,
    gas_price := col.mainnet_gas_price message,
    value := 0,
    data := col.withdraw_input (sgs.map (fun x => x.v)) (sgs.map (fun x => x.r))
      (sgs.map (fun x => x.s)) message,
    nonce := 0,
    action := cfg.home_contract }

/-- One iteration of the poll loop body, translated arm by arm from the match
on self.state in WithdrawRelay::poll.  The returned state is the stored state
after the iteration: the committed next state on a next outcome, and the
untouched current state on every return path — except the Yield arm, whose
take mutates the held option in place before returning. -/
def step (cfg : Config) (col : Collab) (env : Env) :
    WithdrawRelayState → StepOut × WithdrawRelayState
  | .wait =>
    match env.logsPoll with
    | .failed e =>
      (.error (.contextualized "polling foreign for collected signatures" e), .wait)
    | .notReady => (.notReady, .wait)
    | .ready none => (.ended, .wait)
    | .ready (some item) =>
      match collectAssignments cfg.foreign_account item.logs with
      | .error e => (.error e, .wait)
      | .ok assignments =>
        let owned := assignments.filterMap id
        (.next, .fetchMessagesSignatures
          ⟨owned.map (fun a => a.message_payload),
           owned.map (fun a => a.signature_payloads)⟩ item.to_block)
  | .fetchMessagesSignatures future block =>
    match env.home_balance with
    | none => (.notReady, .fetchMessagesSignatures future block)
    | some balance =>
      match env.fetchResult future with
      | .notReady => (.notReady, .fetchMessagesSignatures future block)
      | .failed e =>
        (.error (.contextualized "fetching messages and signatures from foreign" e),
         .fetchMessagesSignatures future block)
      | .ready (messages_raw, signatures_raw) =>
        if messages_raw.length ≠ signatures_raw.length then
          (.panic, .fetchMessagesSignatures future block)
        else if cfg.gas * env.home_gas_price * messages_raw.length > balance then
          (.error .insufficientFunds, .fetchMessagesSignatures future block)
        else
          match decodeMessagesRaw col.decodeMessage messages_raw with
          | none => (.error .decode, .fetchMessagesSignatures future block)
          | some messages =>
            match decodeSignatureGroups col.decodeSignature signatures_raw with
            | none => (.error .decode, .fetchMessagesSignatures future block)
            | some signatures =>
              (.next, .relayWithdraws
                ((messages.zip signatures).map (fun p => mkRelayTx cfg col p.1 p.2)) block)
  | .relayWithdraws future block =>
    match env.sendsResult future with
    | .notReady => (.notReady, .relayWithdraws future block)
    | .failed e =>
      (.error (.contextualized "sending withdrawal to home" e), .relayWithdraws future block)
    | .ready _ => (.next, .yield (some block))
  | .yield b =>
    match b with
    | some v => (.yielded (.withdrawRelay v), .yield none)
    | none => (.next, .wait)

/-- Fueled iteration of the poll loop: repeat step while it commits a
transition and continues, return its outcome otherwise. -/
def pollAux (cfg : Config) (col : Collab) (env : Env) :
    Nat → WithdrawRelayState → StepOut × WithdrawRelayState
  | 0, s => (.fuelOut, s)
  | fuel + 1, s =>
    match step cfg col env s with
    | (.next, s1) => pollAux cfg col env fuel s1
    | out => out

/-- One call of WithdrawRelay::poll starting from the stored state; five
iterations are enough fuel since the loop visits each state at most once per
call. -/
def poll (cfg : Config) (col : Collab) (env : Env) (s : WithdrawRelayState) :
    StepOut × WithdrawRelayState :=
  pollAux cfg col env 5 s

/-- List of zero bytes. -/
def zeros (k : Nat) : List Nat := List.replicate k 0

/-- Twenty address bytes of the reference test vector. -/
def testAddressBytes : List Nat :=
  [0xaf, 0xf3, 0x45, 0x4f, 0xce, 0x5e, 0xdb, 0xc8, 0xcc, 0xa8,
   0x69, 0x7c, 0x15, 0x33, 0x16, 0x77, 0xe6, 0xeb, 0xcc, 0xcc]

/-- This node's address in the reference test vector. -/
def testMyAddress : Nat := 0xaff3454fce5edbc8cca8697c15331677e6ebcccc

/-- Data bytes of the reference test log: the responsible authority address,
message hash 0xf0, and signature count 2. -/
def testLogData : List Nat :=
  zeros 12 ++ testAddressBytes ++ zeros 31 ++ [0xf0] ++ zeros 31 ++ [0x02]

/-- Reference test log. -/
def testLog : Log := { topics := [collectedSignaturesTopic], data := testLogData }

/-- Event parsed from the reference test log. -/
def testEvent : CollectedSignatures :=
  { authority_responsible_for_relay := testMyAddress,
    message_hash := 0xf0,
    number_of_collected_signatures := 2 }

/-- Expected message call payload of the reference test vector. -/
def expected_message_payload : List Nat :=
  [0x49, 0x0a, 0x32, 0xc6] ++ zeros 31 ++ [0xf0]

/-- Expected first signature call payload of the reference test vector. -/
def expected_signature_payload_0 : List Nat :=
  [0x18, 0x12, 0xd9, 0x96] ++ zeros 31 ++ [0xf0] ++ zeros 31 ++ [0x00]

/-- Expected second signature call payload of the reference test vector. -/
def expected_signature_payload_1 : List Nat :=
  [0x18, 0x12, 0xd9, 0x96] ++ zeros 31 ++ [0xf0] ++ zeros 31 ++ [0x01]

/-- Log whose signature count word holds two raised to 32, owned by this
node. -/
def bigCountLog : Log :=
  { topics := [collectedSignaturesTopic],
    data := zeros 12 ++ testAddressBytes ++ zeros 31 ++ [0xf0] ++
      zeros 27 ++ [0x01] ++ zeros 4 }

/-- Event parsed from bigCountLog. -/
def bigCountEvent : CollectedSignatures :=
  { authority_responsible_for_relay := testMyAddress,
    message_hash := 0xf0,
    number_of_collected_signatures := 2 ^ 32 }

/-- Well-formed environment: polling a fetch future gives one raw message per
message call and one raw signature group per signature call group, as the
join of the two join-alls does. -/
def EnvWF (env : Env) : Prop :=
  ∀ future ms ss, env.fetchResult future = .ready (ms, ss) →
    ms.length = future.messages.length ∧ ss.length = future.signatures.length

/-- Concrete configuration for the closed instances. -/
def cfg0 : Config := { gas := 1000, home_contract := 77, foreign_account := testMyAddress }

/-- Concrete collaborator codecs for the closed instances: identity message
decode, constant signature decode, concatenating withdraw encoder, and a
length-based gas-price extractor. -/
def col0 : Collab :=
  { decodeMessage := fun bs => some bs,
    decodeSignature := fun _ => some { v := 1, r := 2, s := 3 },
    withdraw_input := fun vs rs ss m => vs ++ rs ++ ss ++ m,
    mainnet_gas_price := fun m => m.length }

/-- Environment whose log stream yields an empty batch up to block 5, whose
fetch futures resolve length-preservingly and whose sends succeed. -/
def env0 : Env :=
  { logsPoll := .ready (some { logs := [], to_block := 5 }),
    fetchResult := fun f =>
      .ready (f.messages.map (fun _ => []), f.signatures.map (fun g => g.map (fun _ => []))),
    sendsResult := fun _ => .ready (),
    home_balance := some 1000000,
    home_gas_price := 3 }

/-- Environment whose sends fail with transport error 7. -/
def envSendFail : Env :=
  { logsPoll := .notReady,
    fetchResult := fun _ => .notReady,
    sendsResult := fun _ => .failed 7,
    home_balance := none,
    home_gas_price := 3 }

/-- Environment with a known zero home balance and one fetched withdraw. -/
def envPoor : Env :=
  { logsPoll := .notReady,
    fetchResult := fun _ => .ready ([[0]], [[[0]]]),
    sendsResult := fun _ => .notReady,
    home_balance := some 0,
    home_gas_price := 3 }

/-- Environment with a large known home balance and one fetched withdraw. -/
def envRich : Env :=
  { logsPoll := .notReady,
    fetchResult := fun _ => .ready ([[5]], [[[6]]]),
    sendsResult := fun _ => .notReady,
    home_balance := some 1000000,
    home_gas_price := 3 }

/-- Environment whose home balance is unknown while the pending fetch would
fail if it were polled. -/
def envNoBal : Env :=
  { logsPoll := .notReady,
    fetchResult := fun _ => .failed 3,
    sendsResult := fun _ => .notReady,
    home_balance := none,
    home_gas_price := 3 }

/-- Environment whose log stream poll fails with transport error 3. -/
def envLogFail : Env :=
  { logsPoll := .failed 3,
    fetchResult := fun _ => .notReady,
    sendsResult := fun _ => .notReady,
    home_balance := none,
    home_gas_price := 3 }

/-- Decomposition of a remainder by a product into the low byte and the high
quotient's remainder. -/
theorem mod_mul_decomp (n w : Nat) :
    n % (256 * 256 ^ w) = 256 * (n / 256 % 256 ^ w) + n % 256 := by
  conv_lhs => rw [← Nat.div_add_mod (n % (256 * 256 ^ w)) 256]
  rw [Nat.mod_mul_right_div_self, Nat.mod_mod_of_dvd _ ⟨256 ^ w, rfl⟩]

/-- Left fold of the big-endian byte accumulator over an encoded word. -/
theorem foldl_beBytes (w : Nat) : ∀ n acc : Nat,
    (beBytes w n).foldl (fun acc b => acc * 256 + b) acc = acc * 256 ^ w + n % 256 ^ w := by
  induction w with
  | zero => intro n acc; simp [beBytes, Nat.mod_one]
  | succ w ih =>
    intro n acc
    rw [beBytes, List.foldl_append, ih]
    simp only [List.foldl_cons, List.foldl_nil]
    have h : n % 256 ^ (w + 1) = 256 * (n / 256 % 256 ^ w) + n % 256 := by
      rw [pow_succ, mul_comm (256 ^ w) 256, mod_mul_decomp]
    rw [h, pow_succ]
    ring

/-- Big-endian decode inverts big-endian encode up to the word size. -/
theorem fromBytesBE_beBytes (w n : Nat) : fromBytesBE (beBytes w n) = n % 256 ^ w := by
  have h := foldl_beBytes w n 0
  simpa [fromBytesBE] using h

/-- Upper bound of the big-endian byte fold when every entry is a byte. -/
theorem foldl_bytes_lt (bs : List Nat) : ∀ acc : Nat, (∀ b ∈ bs, b < 256) →
    bs.foldl (fun acc b => acc * 256 + b) acc < (acc + 1) * 256 ^ bs.length := by
  induction bs with
  | nil => intro acc _; simp
  | cons b bs ih =>
    intro acc h
    simp only [List.foldl_cons, List.length_cons]
    have hb : b < 256 := h b (List.mem_cons_self _ _)
    have h2 : ∀ x ∈ bs, x < 256 := fun x hx => h x (List.mem_cons_of_mem _ hx)
    calc List.foldl (fun acc b => acc * 256 + b) (acc * 256 + b) bs
        < (acc * 256 + b + 1) * 256 ^ bs.length := ih _ h2
      _ ≤ ((acc + 1) * 256) * 256 ^ bs.length := Nat.mul_le_mul_right _ (by omega)
      _ = (acc + 1) * 256 ^ (bs.length + 1) := by ring

/-- Value decoded from a byte string is below the base raised to its length. -/
theorem fromBytesBE_lt (bs : List Nat) (h : ∀ b ∈ bs, b < 256) :
    fromBytesBE bs < 256 ^ bs.length := by
  have h2 := foldl_bytes_lt bs 0 h
  simpa [fromBytesBE] using h2

/-- Byte base raised to the word size equals two raised to 256. -/
theorem base_pow_32 : (256 : Nat) ^ 32 = 2 ^ 256 := by decide

/-- Stripping the selector from a message call payload leaves the encoded
argument word. -/
theorem message_input_drop (n : Nat) : (message_input n).drop 4 = beBytes 32 n := by
  have h : messageSelector.length = 4 := rfl
  rw [message_input, ← h, List.drop_left]

/-- Selector-strip round trip: encoding the signature count as the message
call argument and reading back the remaining 32 bytes big-endian is the
identity on 256-bit words. -/
theorem required_signatures_roundtrip (n : Nat) (h : n < 2 ^ 256) :
    fromBytesBE ((message_input n).drop 4) = n := by
  rw [message_input_drop, fromBytesBE_beBytes, Nat.mod_eq_of_lt]
  rw [base_pow_32]
  exact h

/-- Successful event decode yields a signature count below two raised to 256. -/
theorem parse_count_lt (log : Log) (cs : CollectedSignatures)
    (h : parse_collected_signatures log = some cs) :
    cs.number_of_collected_signatures < 2 ^ 256 := by
  unfold parse_collected_signatures at h
  split at h
  case isTrue hcond =>
    obtain ⟨ht, hlen, hb⟩ := hcond
    injection h with h
    have hlen2 : (log.data.drop 64).length = 32 := by simp [hlen]
    have hb2 : ∀ b ∈ log.data.drop 64, b < 256 := fun b hbm => hb b (List.mem_of_mem_drop hbm)
    have hlt := fromBytesBE_lt _ hb2
    rw [hlen2, base_pow_32] at hlt
    rw [← h]
    exact hlt
  case isFalse => exact absurd h (by simp)

/-- C1: for every raw log that decodes successfully, signatures_payload
returns Some exactly when the event's responsible authority equals this
node's address, and Ok none (not an error) for every other well-formed
event. -/
theorem c1_responsibility_sharding (my_address : Nat) (log : Log)
    (cs : CollectedSignatures) (h : parse_collected_signatures log = some cs) :
    ((∃ a, signatures_payload my_address log = .ok (some a)) ↔
      cs.authority_responsible_for_relay = my_address) ∧
    (cs.authority_responsible_for_relay ≠ my_address →
      signatures_payload my_address log = .ok none) := by
  unfold signatures_payload
  rw [h]
  by_cases hauth : cs.authority_responsible_for_relay = my_address
  · simp [hauth]
  · simp [hauth]

/-- Witness for C1 at the reference test vectors: the owned event yields an
assignment and the same event seen by a different address yields none. -/
theorem c1_witness :
    (∃ a, signatures_payload testMyAddress testLog = .ok (some a)) ∧
    signatures_payload 0xaff3454fce5edbc8cca8697c15331677e6ebcccd testLog = .ok none :=
  ⟨(c1_responsibility_sharding testMyAddress testLog testEvent (by decide)).1.mpr (by decide),
   (c1_responsibility_sharding 0xaff3454fce5edbc8cca8697c15331677e6ebcccd testLog testEvent
     (by decide)).2 (by decide)⟩

/-- C6 counterexample: on an owned event whose signature count is two raised
to 32, the builder produces zero signature payloads although the derived
required-signature count is two raised to 32, so the payload-per-index range
of the claim fails. -/
theorem c6_counterexample :
    parse_collected_signatures bigCountLog = some bigCountEvent ∧
    bigCountEvent.authority_responsible_for_relay = testMyAddress ∧
    signatures_payload testMyAddress bigCountLog =
      .ok (some { signature_payloads := [], message_payload := message_input 0xf0 }) ∧
    fromBytesBE ((message_input bigCountEvent.number_of_collected_signatures).drop 4) = 2 ^ 32 ∧
    (0 : Nat) ≠ 2 ^ 32 := by
  refine ⟨by decide, by decide, by rfl, ?_, by decide⟩
  have hc : bigCountEvent.number_of_collected_signatures = 2 ^ 32 := rfl
  rw [hc, required_signatures_roundtrip (2 ^ 32) (by norm_num)]

/-- C6 (amended): for every owned event the selector-strip round trip is the
identity on the signature count, and the builder builds one signature-fetch
payload per index in the range of the low 32 bits of required_signatures
(equal to required_signatures whenever it is below two raised to 32). -/
theorem c6_amended_roundtrip_and_range (my_address : Nat) (log : Log)
    (cs : CollectedSignatures) (h : parse_collected_signatures log = some cs)
    (hown : cs.authority_responsible_for_relay = my_address) :
    fromBytesBE ((message_input cs.number_of_collected_signatures).drop 4) =
      cs.number_of_collected_signatures ∧
    signatures_payload my_address log = .ok (some {
      signature_payloads := (List.range (cs.number_of_collected_signatures % 2 ^ 32)).map
        (fun index => signature_input cs.message_hash index),
      message_payload := message_input cs.message_hash }) := by
  have hlt := parse_count_lt log cs h
  have hrt := required_signatures_roundtrip _ hlt
  refine ⟨hrt, ?_⟩
  unfold signatures_payload
  rw [h]
  simp [hown, hrt]

/-- Witness for the amended C6 at the reference test vector. -/
theorem c6_witness :
    fromBytesBE ((message_input testEvent.number_of_collected_signatures).drop 4) =
      testEvent.number_of_collected_signatures ∧
    signatures_payload testMyAddress testLog = .ok (some {
      signature_payloads := (List.range (testEvent.number_of_collected_signatures % 2 ^ 32)).map
        (fun index => signature_input testEvent.message_hash index),
      message_payload := message_input testEvent.message_hash }) :=
  c6_amended_roundtrip_and_range testMyAddress testLog testEvent (by decide) (by decide)

set_option maxRecDepth 4000 in
/-- C7: on the reference test vector with two collected signatures the
builder produces exactly the two expected signature payloads for indices 0
and 1 and the expected message payload; the message payload starts with the
message selector, the signature payloads start with the signature selector
and differ only in their trailing index byte, and each equals the
deterministic ABI encoding of its arguments. -/
theorem c7_concrete_assignment :
    signatures_payload testMyAddress testLog = .ok (some {
      signature_payloads := [expected_signature_payload_0, expected_signature_payload_1],
      message_payload := expected_message_payload }) ∧
    expected_message_payload.take 4 = messageSelector ∧
    expected_signature_payload_0.take 4 = signatureSelector ∧
    expected_signature_payload_1.take 4 = signatureSelector ∧
    expected_signature_payload_0.dropLast = expected_signature_payload_1.dropLast ∧
    expected_signature_payload_0.getLast? = some 0 ∧
    expected_signature_payload_1.getLast? = some 1 ∧
    expected_message_payload = message_input 0xf0 ∧
    expected_signature_payload_0 = signature_input 0xf0 0 ∧
    expected_signature_payload_1 = signature_input 0xf0 1 := by
  refine ⟨by rfl, by decide, by decide, by decide, by decide, by decide, by decide,
    by decide, by decide, by decide⟩

/-- Poll returns the first non-continuing step outcome unchanged. -/
theorem poll_of_step_return (cfg : Config) (col : Collab) (env : Env)
    (s : WithdrawRelayState) (out : StepOut) (s2 : WithdrawRelayState)
    (h : step cfg col env s = (out, s2)) (hn : out ≠ .next) :
    poll cfg col env s = (out, s2) := by
  unfold poll
  simp only [pollAux]
  rw [h]
  cases out
  case next => exact absurd rfl hn
  all_goals rfl

/-- Reduction of the fetch arm once the balance is known and the combined
fetch future has resolved with matching list lengths. -/
theorem step_fetch_ready (cfg : Config) (col : Collab) (env : Env)
    (future : FetchFuture) (block balance : Nat)
    (ms : List (List Nat)) (ss : List (List (List Nat)))
    (hbal : env.home_balance = some balance)
    (hfetch : env.fetchResult future = .ready (ms, ss))
    (hlen : ms.length = ss.length) :
    step cfg col env (.fetchMessagesSignatures future block) =
      if cfg.gas * env.home_gas_price * ms.length > balance then
        (.error .insufficientFunds, .fetchMessagesSignatures future block)
      else
        match decodeMessagesRaw col.decodeMessage ms with
        | none => (.error .decode, .fetchMessagesSignatures future block)
        | some messages =>
          match decodeSignatureGroups col.decodeSignature ss with
          | none => (.error .decode, .fetchMessagesSignatures future block)
          | some signatures =>
            (.next, .relayWithdraws
              ((messages.zip signatures).map (fun p => mkRelayTx cfg col p.1 p.2)) block) := by
  simp only [step, hbal, hfetch]
  rw [if_neg (show ¬ ms.length ≠ ss.length from fun hne => hne hlen)]

/-- C2: when any transaction send awaited in the RelayWithdraws state fails,
the poll returns the error wrapped with context "sending withdrawal to home",
no checkpoint-advance value is emitted, and the stored state is left in
RelayWithdraws, never reaching a Yield holding the batch block. -/
theorem c2_send_failure_aborts_batch (cfg : Config) (col : Collab) (env : Env)
    (future : List Transaction) (block e : Nat)
    (h : env.sendsResult future = .failed e) :
    poll cfg col env (.relayWithdraws future block) =
      (.error (.contextualized "sending withdrawal to home" e),
       .relayWithdraws future block) := by
  simp [poll, pollAux, step, h]

/-- Witness for C2: a failing send on an empty batch at block 9. -/
theorem c2_witness :
    poll cfg0 col0 envSendFail (.relayWithdraws [] 9) =
      (.error (.contextualized "sending withdrawal to home" 7),
       .relayWithdraws [] 9) :=
  c2_send_failure_aborts_batch cfg0 col0 envSendFail [] 9 7 (by rfl)

/-- C3: once the fetch completes, a batch whose required balance (fixed gas
limit times home gas price times fetched message count) exceeds the home
balance makes the poll fail with InsufficientFunds leaving the state in
place, so no transaction is ever handed to the sender; otherwise the step
proceeds to the RelayWithdraws submission state. -/
theorem c3_balance_gate (cfg : Config) (col : Collab) (env : Env)
    (future : FetchFuture) (block balance : Nat)
    (ms : List (List Nat)) (ss : List (List (List Nat)))
    (hbal : env.home_balance = some balance)
    (hfetch : env.fetchResult future = .ready (ms, ss))
    (hlen : ms.length = ss.length) :
    (cfg.gas * env.home_gas_price * ms.length > balance →
      poll cfg col env (.fetchMessagesSignatures future block) =
        (.error .insufficientFunds, .fetchMessagesSignatures future block)) ∧
    (¬ cfg.gas * env.home_gas_price * ms.length > balance →
      ∀ msgs sgs, decodeMessagesRaw col.decodeMessage ms = some msgs →
        decodeSignatureGroups col.decodeSignature ss = some sgs →
        step cfg col env (.fetchMessagesSignatures future block) =
          (.next, .relayWithdraws
            ((msgs.zip sgs).map (fun p => mkRelayTx cfg col p.1 p.2)) block)) := by
  constructor
  · intro hgt
    have hstep := step_fetch_ready cfg col env future block balance ms ss hbal hfetch hlen
    rw [if_pos hgt] at hstep
    exact poll_of_step_return cfg col env _ _ _ hstep (by simp)
  · intro hle msgs sgs hm hs
    have hstep := step_fetch_ready cfg col env future block balance ms ss hbal hfetch hlen
    rw [if_neg hle] at hstep
    simp only [hm, hs] at hstep
    exact hstep

/-- Witness for C3: one fetched withdraw against a zero balance fails with
InsufficientFunds, and against a large balance proceeds to submission. -/
theorem c3_witness :
    (cfg0.gas * envPoor.home_gas_price * [[(0 : Nat)]].length > 0 →
      poll cfg0 col0 envPoor (.fetchMessagesSignatures ⟨[], []⟩ 4) =
        (.error .insufficientFunds, .fetchMessagesSignatures ⟨[], []⟩ 4)) ∧
    (¬ cfg0.gas * envPoor.home_gas_price * [[(0 : Nat)]].length > 0 →
      ∀ msgs sgs, decodeMessagesRaw col0.decodeMessage [[0]] = some msgs →
        decodeSignatureGroups col0.decodeSignature [[[0]]] = some sgs →
        step cfg0 col0 envPoor (.fetchMessagesSignatures ⟨[], []⟩ 4) =
          (.next, .relayWithdraws
            ((msgs.zip sgs).map (fun p => mkRelayTx cfg0 col0 p.1 p.2)) 4)) :=
  c3_balance_gate cfg0 col0 envPoor ⟨[], []⟩ 4 0 [[0]] [[[0]]] (by rfl) (by rfl) (by rfl)

/-- C4: while the shared home balance cache holds no value, polling in the
FetchMessagesSignatures state returns not-ready with the stored state — and
in particular the pending fetch future — left exactly as it was, whatever
the pending fetch would return. -/
theorem c4_unknown_balance_suspends (cfg : Config) (col : Collab) (env : Env)
    (future : FetchFuture) (block : Nat) (h : env.home_balance = none) :
    poll cfg col env (.fetchMessagesSignatures future block) =
      (.notReady, .fetchMessagesSignatures future block) := by
  simp [poll, pollAux, step, h]

/-- Witness for C4: with an unknown balance and a fetch future that would
fail if polled, the poll still suspends with the state untouched. -/
theorem c4_witness :
    poll cfg0 col0 envNoBal (.fetchMessagesSignatures ⟨[[1]], [[[2]]]⟩ 8) =
      (.notReady, .fetchMessagesSignatures ⟨[[1]], [[[2]]]⟩ 8) :=
  c4_unknown_balance_suspends cfg0 col0 envNoBal ⟨[[1]], [[[2]]]⟩ 8 (by rfl)

/-- C5: when all sends of a batch succeed, the poll emits exactly one
checkpoint-advance value equal to the batch's upper block bound, leaving the
state in Yield holding none, and the next step from that state transitions
back to Wait to resume scanning. -/
theorem c5_yield_once_then_wait (cfg : Config) (col : Collab) (env : Env)
    (future : List Transaction) (block : Nat)
    (h : env.sendsResult future = .ready ()) :
    poll cfg col env (.relayWithdraws future block) =
      (.yielded (.withdrawRelay block), .yield none) ∧
    step cfg col env (.yield none) = (.next, .wait) := by
  constructor
  · simp [poll, pollAux, step, h]
  · simp [step]

/-- Witness for C5: an empty batch (zero owned events) at block 12 yields
exactly the checkpoint value 12 and then resumes scanning. -/
theorem c5_witness :
    poll cfg0 col0 env0 (.relayWithdraws [] 12) =
      (.yielded (.withdrawRelay 12), .yield none) ∧
    step cfg0 col0 env0 (.yield none) = (.next, .wait) :=
  c5_yield_once_then_wait cfg0 col0 env0 [] 12 (by rfl)

/-- C8: every withdrawal transaction constructed by the fetch arm carries the
fixed configured gas limit, gas price decoded out of that transaction's own
message bytes, zero value, the encoded home withdraw call over the v, r, s
sequences and the message bytes as data, a placeholder nonce, and the home
contract address as call target. -/
theorem c8_transaction_shape (cfg : Config) (col : Collab) (env : Env)
    (future : FetchFuture) (block balance : Nat)
    (ms : List (List Nat)) (ss : List (List (List Nat)))
    (msgs : List (List Nat)) (sgs : List (List Signature))
    (hbal : env.home_balance = some balance)
    (hfetch : env.fetchResult future = .ready (ms, ss))
    (hlen : ms.length = ss.length)
    (hle : ¬ cfg.gas * env.home_gas_price * ms.length > balance)
    (hm : decodeMessagesRaw col.decodeMessage ms = some msgs)
    (hs : decodeSignatureGroups col.decodeSignature ss = some sgs) :
    step cfg col env (.fetchMessagesSignatures future block) =
      (.next, .relayWithdraws
        ((msgs.zip sgs).map (fun p => mkRelayTx cfg col p.1 p.2)) block) ∧
    ∀ tx ∈ (msgs.zip sgs).map (fun p => mkRelayTx cfg col p.1 p.2),
      tx.gas = cfg.gas ∧ tx.value = 0 ∧ tx.nonce = 0 ∧ tx.action = cfg.home_contract ∧
      ∃ m sg, (m, sg) ∈ msgs.zip sgs ∧
        tx.gas_price = col.mainnet_gas_price m ∧
        tx.data = col.withdraw_input (sg.map (fun x => x.v)) (sg.map (fun x => x.r))
          (sg.map (fun x => x.s)) m := by
  constructor
  · have hstep := step_fetch_ready cfg col env future block balance ms ss hbal hfetch hlen
    rw [if_neg hle] at hstep
    simp only [hm, hs] at hstep
    exact hstep
  · intro tx htx
    obtain ⟨p, hp, rfl⟩ := List.mem_map.mp htx
    exact ⟨rfl, rfl, rfl, rfl, p.1, p.2, by simpa using hp, rfl, rfl⟩

/-- Witness for C8: one fetched withdraw with the concrete codecs yields one
transaction of exactly the prescribed shape. -/
theorem c8_witness :
    step cfg0 col0 envRich (.fetchMessagesSignatures ⟨[], []⟩ 4) =
      (.next, .relayWithdraws
        ((([[5]] : List (List Nat)).zip ([[⟨1, 2, 3⟩]] : List (List Signature))).map
          (fun p => mkRelayTx cfg0 col0 p.1 p.2)) 4) ∧
    ∀ tx ∈ (([[5]] : List (List Nat)).zip ([[⟨1, 2, 3⟩]] : List (List Signature))).map
        (fun p => mkRelayTx cfg0 col0 p.1 p.2),
      tx.gas = cfg0.gas ∧ tx.value = 0 ∧ tx.nonce = 0 ∧ tx.action = cfg0.home_contract ∧
      ∃ m sg, (m, sg) ∈ ([[5]] : List (List Nat)).zip ([[⟨1, 2, 3⟩]] : List (List Signature)) ∧
        tx.gas_price = col0.mainnet_gas_price m ∧
        tx.data = col0.withdraw_input (sg.map (fun x => x.v)) (sg.map (fun x => x.r))
          (sg.map (fun x => x.s)) m :=
  c8_transaction_shape cfg0 col0 envRich ⟨[], []⟩ 4 1000000 [[5]] [[[6]]]
    [[5]] [[⟨1, 2, 3⟩]]
    (by rfl) (by rfl) (by rfl) (by decide) (by rfl) (by rfl)

/-- C9: a fetch future built by the Wait arm holds as many message calls as
signature call groups, since both are unzipped from the same assignment
sequence; hence in a well-formed environment, where resolving a fetch future
preserves both list lengths, the length-equality assertion of the fetch arm
can never fail. -/
theorem c9_length_invariant (cfg : Config) (col : Collab) (env : Env)
    (future : FetchFuture) (block : Nat)
    (h : step cfg col env .wait = (.next, .fetchMessagesSignatures future block))
    (hwf : EnvWF env) :
    future.messages.length = future.signatures.length ∧
    (step cfg col env (.fetchMessagesSignatures future block)).1 ≠ .panic := by
  have hfl : future.messages.length = future.signatures.length := by
    cases hlp : env.logsPoll with
    | failed e => simp [step, hlp] at h
    | notReady => simp [step, hlp] at h
    | ready o =>
      cases o with
      | none => simp [step, hlp] at h
      | some item =>
        cases hca : collectAssignments cfg.foreign_account item.logs with
        | error e => simp [step, hlp, hca] at h
        | ok assignments =>
          simp only [step, hlp, hca, Prod.mk.injEq] at h
          obtain ⟨h1, h2⟩ := h
          injection h2 with h3 h4
          rw [← h3]
          simp
  refine ⟨hfl, ?_⟩
  cases hb : env.home_balance with
  | none => simp [step, hb]
  | some balance =>
    cases hf : env.fetchResult future with
    | notReady => simp [step, hb, hf]
    | failed e => simp [step, hb, hf]
    | ready pr =>
      obtain ⟨ms, ss⟩ := pr
      obtain ⟨h1, h2⟩ := hwf future ms ss hf
      have hms : ms.length = ss.length := by rw [h1, h2, hfl]
      rw [step_fetch_ready cfg col env future block balance ms ss hb hf hms]
      by_cases hgt : cfg.gas * env.home_gas_price * ms.length > balance
      · simp [hgt]
      · rw [if_neg hgt]
        cases decodeMessagesRaw col.decodeMessage ms with
        | none => simp
        | some msgs =>
          cases decodeSignatureGroups col.decodeSignature ss with
          | none => simp
          | some sgs => simp

/-- Witness for C9: an empty scanned batch builds the empty fetch future,
whose message and signature call lists have equal length, and the fetch arm
does not hit the assertion in the length-preserving environment. -/
theorem c9_witness :
    (⟨[], []⟩ : FetchFuture).messages.length = (⟨[], []⟩ : FetchFuture).signatures.length ∧
    (step cfg0 col0 env0 (.fetchMessagesSignatures ⟨[], []⟩ 5)).1 ≠ .panic :=
  c9_length_invariant cfg0 col0 env0 ⟨[], []⟩ 5 (by rfl)
    (fun future ms ss h => by
      simp only [env0] at h
      injection h with h1
      rw [Prod.mk.injEq] at h1
      obtain ⟨h2, h3⟩ := h1
      rw [← h2, ← h3]
      simp)

/-- C10: an error return never commits a state transition: at the step level
every error outcome leaves the stored state exactly as it was, and at the
poll level the stored state after an error poll is precisely the state whose
step produced that error, itself left unchanged. -/
theorem c10_error_preserves_state (cfg : Config) (col : Collab) (env : Env)
    (s s2 : WithdrawRelayState) (e : Error) :
    (step cfg col env s = (.error e, s2) → s2 = s) ∧
    (poll cfg col env s = (.error e, s2) → step cfg col env s2 = (.error e, s2)) := by
  have hpres : ∀ t : WithdrawRelayState,
      (step cfg col env t).2 = t ∨ (step cfg col env t).1 = .next ∨
      ∃ v, (step cfg col env t).1 = .yielded v := by
    intro t
    cases t with
    | wait =>
      cases hlp : env.logsPoll with
      | failed e2 => simp [step, hlp]
      | notReady => simp [step, hlp]
      | ready o =>
        cases o with
        | none => simp [step, hlp]
        | some item =>
          cases hca : collectAssignments cfg.foreign_account item.logs with
          | error e2 => simp [step, hlp, hca]
          | ok assignments => simp [step, hlp, hca]
    | fetchMessagesSignatures fut blk =>
      cases hb : env.home_balance with
      | none => simp [step, hb]
      | some balance =>
        cases hf : env.fetchResult fut with
        | notReady => simp [step, hb, hf]
        | failed e2 => simp [step, hb, hf]
        | ready pr =>
          obtain ⟨ms, ss⟩ := pr
          by_cases hne : ms.length = ss.length
          · have hne2 : ¬ ms.length ≠ ss.length := fun hx => hx hne
            by_cases hgt : cfg.gas * env.home_gas_price * ms.length > balance
            · simp [step, hb, hf, hne2, hgt]
            · cases hdm : decodeMessagesRaw col.decodeMessage ms with
              | none => simp [step, hb, hf, hne2, hgt, hdm]
              | some msgs =>
                cases hds : decodeSignatureGroups col.decodeSignature ss with
                | none => simp [step, hb, hf, hne2, hgt, hdm, hds]
                | some sgs => simp [step, hb, hf, hne2, hgt, hdm, hds]
          · simp [step, hb, hf, hne]
    | relayWithdraws fut blk =>
      cases hsr : env.sendsResult fut with
      | notReady => simp [step, hsr]
      | failed e2 => simp [step, hsr]
      | ready u => simp [step, hsr]
    | yield b =>
      cases b with
      | none => simp [step]
      | some v => simp [step]
  have hstep : ∀ t t2 : WithdrawRelayState, step cfg col env t = (.error e, t2) → t2 = t := by
    intro t t2 h
    rcases hpres t with hp | hp | ⟨v, hp⟩
    · rw [h] at hp; exact hp
    · rw [h] at hp; exact absurd hp (by simp)
    · rw [h] at hp; exact absurd hp (by simp)
  have hpoll : ∀ fuel (t t2 : WithdrawRelayState),
      pollAux cfg col env fuel t = (.error e, t2) →
      step cfg col env t2 = (.error e, t2) := by
    intro fuel
    induction fuel with
    | zero =>
      intro t t2 h
      simp only [pollAux, Prod.mk.injEq] at h
      exact absurd h.1 (by simp)
    | succ n ih =>
      intro t t2 h
      simp only [pollAux] at h
      cases hs : step cfg col env t with
      | mk out s1 =>
        rw [hs] at h
        cases out with
        | next => exact ih s1 t2 h
        | error e2 =>
          have h2 : (StepOut.error e2, s1) = ((.error e : StepOut), t2) := h
          rw [Prod.mk.injEq] at h2
          obtain ⟨h3, h4⟩ := h2
          injection h3 with h3
          subst h3
          subst h4
          have heq := hstep t s1 hs
          rw [heq] at hs ⊢
          exact hs
        | notReady => exact absurd (congrArg Prod.fst h) (by simp)
        | yielded v => exact absurd (congrArg Prod.fst h) (by simp)
        | ended => exact absurd (congrArg Prod.fst h) (by simp)
        | panic => exact absurd (congrArg Prod.fst h) (by simp)
        | fuelOut => exact absurd (congrArg Prod.fst h) (by simp)
  exact ⟨hstep s s2, hpoll 5 s s2⟩

/-- Witness for C10: a failing log-stream poll leaves the machine in Wait,
and the erroring step at the final stored state reproduces the same error in
place. -/
theorem c10_witness :
    step cfg0 col0 envLogFail .wait =
      (.error (.contextualized "polling foreign for collected signatures" 3), .wait) :=
  (c10_error_preserves_state cfg0 col0 envLogFail .wait .wait
    (.contextualized "polling foreign for collected signatures" 3)).2 (by rfl)

end PoaBridge
